import Mathlib

/-!
Verification of `scripts/swap-team1-goalie-gp-wg.py` (node-fantrax-stats-parser).

The core of the script is the pure function `swap_goalie_columns_in_rows`,
which normalizes the goalie section of a CSV row list so that the "GP"
column comes before the "W-G" column.  We embed it shallowly: a CSV row is
a `List String`, the loop state of the Python function is a structure, and
the per-row body of the loop is `processRow`.  Python's unbounded
non-negative integers (the values compared by the heuristic are decimal
digit strings) are modelled as `Nat`.  The character classes `\s` and `\d`
of the regexes are modelled over their ASCII ranges.
-/

namespace FantraxSwap

/-- The mutable loop state of `swap_goalie_columns_in_rows`:
`in_goalies`, `swapped_any`, `gp_idx`, `wg_idx`, `did_global_column_swap`. -/
structure SwapState where
  in_goalies : Bool
  swapped_any : Bool
  gp_idx : Option Nat
  wg_idx : Option Nat
  did_global_column_swap : Bool
deriving Repr, DecidableEq

/-- Initial state at the top of `swap_goalie_columns_in_rows`. -/
def initState : SwapState :=
  { in_goalies := false, swapped_any := false, gp_idx := none,
    wg_idx := none, did_global_column_swap := false }

/-- The simultaneous assignment `row[i], row[j] = row[j], row[i]` on a copy
of the row (both indices are in range whenever the source performs it). -/
def swapCells (i j : Nat) (row : List String) : List String :=
  (row.set i (row.getD j "")).set j (row.getD i "")

/-- ASCII range of Python's regex class `\s`. -/
def pyWhitespace (c : Char) : Bool :=
  c == ' ' || c == '\t' || c == '\n' || c == '\r' || c == '\x0b' || c == '\x0c'

/-- Numeric value of a string of decimal digits (Python `int`). -/
def digitsVal (cs : List Char) : Nat :=
  cs.foldl (fun n c => 10 * n + (c.toNat - '0'.toNat)) 0

/-- `_parse_int_prefix`: `None` on the empty string, otherwise match
`^\s*(\d+)` and return the integer value of the digit group, or `None`
when there is no leading digit after optional whitespace.  (The `int`
conversion cannot raise here, so the `except ValueError` arm is dead.) -/
def _parse_int_prefix (value : String) : Option Nat :=
  if value = "" then none
  else
    let cs := (value.toList.dropWhile pyWhitespace).takeWhile Char.isDigit
    if cs = [] then none else some (digitsVal cs)

/-- The condition of the goalie-header branch:
`row and row[0] == "Pos" and "GP" in row and "W-G" in row`. -/
def IsHeader (row : List String) : Prop :=
  row.head? = some "Pos" ∧ "GP" ∈ row ∧ "W-G" ∈ row

instance (row : List String) : Decidable (IsHeader row) := by
  unfold IsHeader; infer_instance

/-- One iteration of the `for row in rows` loop of
`swap_goalie_columns_in_rows`: takes the state before the row and returns
the state after it together with the emitted row. -/
def processRow (s : SwapState) (row : List String) : SwapState × List String :=
  -- `len(row) == 1 and row[0] == "Goalies"`
  if row = ["Goalies"] then
    ({ s with in_goalies := true, gp_idx := none, wg_idx := none }, row)
  else if row = ["Skaters"] then
    ({ s with in_goalies := false, gp_idx := none, wg_idx := none }, row)
  else if s.in_goalies = false then
    (s, row)
  -- `row and row[0] == "Pos" and "GP" in row and "W-G" in row`
  else if IsHeader row then
    if row.indexOf "W-G" < row.indexOf "GP" then
      ({ s with gp_idx := some (row.indexOf "W-G"), wg_idx := some (row.indexOf "GP"),
                swapped_any := true, did_global_column_swap := true },
       swapCells (row.indexOf "GP") (row.indexOf "W-G") row)
    else
      ({ s with gp_idx := some (row.indexOf "GP"), wg_idx := some (row.indexOf "W-G") }, row)
  else
    match s.gp_idx, s.wg_idx with
    | some g, some w =>
      -- `gp_idx is not None and wg_idx is not None and row and max(gp_idx, wg_idx) < len(row)`
      if row ≠ [] ∧ max g w < row.length then
        if s.did_global_column_swap = true then
          ({ s with swapped_any := true }, swapCells g w row)
        else
          match _parse_int_prefix (row.getD g ""), _parse_int_prefix (row.getD w "") with
          | some gp_val, some wg_val =>
            if wg_val > gp_val then
              ({ s with swapped_any := true }, swapCells g w row)
            else (s, row)
          | _, _ => (s, row)
      else (s, row)
    | _, _ => (s, row)

/-- The whole `for` loop: threads the state through the rows and collects
the emitted rows in order. -/
def processRows : SwapState → List (List String) → SwapState × List (List String)
  | s, [] => (s, [])
  | s, row :: rest =>
    let p := processRow s row
    let q := processRows p.1 rest
    (q.1, p.2 :: q.2)

/-- `swap_goalie_columns_in_rows(rows)`: returns the emitted rows and the
final `swapped_any` flag. -/
def swap_goalie_columns_in_rows (rows : List (List String)) :
    List (List String) × Bool :=
  ((processRows initState rows).2, (processRows initState rows).1.swapped_any)

/-- The `in_goalies` flag the loop holds *before* each row, recomputed by an
independent scan of the section-marker rows (starting from flag `b`).  Row
`k` of the input lies inside a "Goalies"…"Skaters" span exactly when this
flag is `true` at `k` or row `k` is itself a marker row of the span. -/
def flagsFrom (b : Bool) : List (List String) → List Bool
  | [] => []
  | row :: rest =>
    b :: flagsFrom
      (if row = ["Goalies"] then true else if row = ["Skaters"] then false else b) rest

/-- Input refuting idempotence: a reversed-header Goalies section followed by
a canonical-header Goalies section with a well-formed data row. -/
def ex_c1 : List (List String) :=
  [["Goalies"], ["Pos", "W-G", "GP"], ["G", "12", "30"],
   ["Skaters"],
   ["Goalies"], ["Pos", "GP", "W-G"], ["G", "30", "12"]]

/-- Input showing global swap mode leaking across a section change. -/
def ex_c2 : List (List String) :=
  [["Goalies"], ["Pos", "W-G", "GP"], ["G", "7", "20"],
   ["Skaters"],
   ["Goalies"], ["Pos", "GP", "W-G"], ["G", "40", "22"]]

/-- Input showing a non-numeric data row being changed under global swap
mode: the header is reversed, so the following row is swapped even though
neither tracked cell has a leading integer. -/
def ex_c7 : List (List String) :=
  [["Goalies"], ["Pos", "W-G", "GP"], ["G", "abc", "xyz"]]

/-- Input showing a second header-like row re-assigning the tracked column
indices within one section: under the first header's indices (1, 2) the data
row "1" / "5" would be swapped (5 > 1), but the later header moves the
indices to (2, 3), where "5" / "3" needs no swap. -/
def ex_c9 : List (List String) :=
  [["Goalies"], ["Pos", "GP", "W-G"], ["Pos", "X", "GP", "W-G"],
   ["G", "1", "5", "3"]]

/-- The state of the loop just after a canonical goalie header at indices
(1, 2) — used to exercise single rows in witnesses. -/
def stateCanon12 : SwapState :=
  { in_goalies := true, swapped_any := false, gp_idx := some 1,
    wg_idx := some 2, did_global_column_swap := false }

/-! Embedding of `parse_season_from_filename`, i.e. of matching
`FILENAME_RE = ^(regular|playoffs)-(\d{4})-(\d{4})\.csv$` with `re.match`
and returning `(group(1), int(group(2)))`.  The matcher is decomposed into
prefix-consuming steps on `List Char`; `\d` is modelled over ASCII digits.
Python's `$` (without `re.MULTILINE`) accepts the end of the string or the
position just before one final newline — `dollarAccepts` mirrors that. -/

/-- Consume an exact literal from the front, returning the rest. -/
def matchLit (lit cs : List Char) : Option (List Char) :=
  if cs.take lit.length = lit then some (cs.drop lit.length) else none

/-- Consume `(regular|playoffs)`, returning the captured report name. -/
def matchReport (cs : List Char) : Option (String × List Char) :=
  match matchLit "regular".toList cs with
  | some rest => some ("regular", rest)
  | none =>
    match matchLit "playoffs".toList cs with
    | some rest => some ("playoffs", rest)
    | none => none

/-- Consume `\d{4}`, returning the numeric value of the four digits. -/
def take4DigitsVal (cs : List Char) : Option (Nat × List Char) :=
  if 4 ≤ cs.length ∧ (cs.take 4).all Char.isDigit then
    some (digitsVal (cs.take 4), cs.drop 4)
  else none

/-- The anchored part of `FILENAME_RE` before `$`:
`^(regular|playoffs)-(\d{4})-(\d{4})\.csv`.  Returns both captured years
and the unconsumed remainder of the input. -/
def matchFilenameCore (cs : List Char) :
    Option (String × Nat × Nat × List Char) :=
  match matchReport cs with
  | none => none
  | some (report, r1) =>
    match matchLit ['-'] r1 with
    | none => none
    | some r2 =>
      match take4DigitsVal r2 with
      | none => none
      | some (y1, r3) =>
        match matchLit ['-'] r3 with
        | none => none
        | some r4 =>
          match take4DigitsVal r4 with
          | none => none
          | some (y2, r5) =>
            match matchLit ".csv".toList r5 with
            | none => none
            | some r6 => some (report, y1, y2, r6)

/-- Python's `$` outside MULTILINE mode: matches at the end of the subject
or just before a newline that is the last character. -/
def dollarAccepts (cs : List Char) : Bool :=
  cs = [] || cs = ['\n']

/-- `parse_season_from_filename`: `FILENAME_RE.match(filename)`, then
`(m.group(1), int(m.group(2)))` on success and `None` otherwise. -/
def parse_season_from_filename (filename : String) : Option (String × Nat) :=
  match matchFilenameCore filename.toList with
  | none => none
  | some (report, y1, _y2, rest) =>
    if dollarAccepts rest then some (report, y1) else none

/-- Modelled from the claim's words (the refinement target of C10): the
pair is returned exactly when the ENTIRE filename matches
`<report>-<digit×4>-<digit×4>.csv`, i.e. the core pattern consumes every
character of the filename. -/
def claimParseSeason (filename : String) : Option (String × Nat) :=
  match matchFilenameCore filename.toList with
  | none => none
  | some (report, y1, _y2, rest) =>
    if rest = [] then some (report, y1) else none

/-- A filename with at most one trailing line-feed removed. -/
def stripTrailingNewline (s : String) : String :=
  if s.toList.getLast? = some '\n' then String.mk s.toList.dropLast else s

/-- Invariant of the loop state of `swap_goalie_columns_in_rows`, established
by `initState` and preserved by every row: global swap mode implies the
change flag (the header swap that turned the mode on set it), and the two
tracked indices, when both known, are distinct (they come from `row.index`
of the two distinct labels). -/
def Inv (s : SwapState) : Prop :=
  (s.did_global_column_swap = true → s.swapped_any = true) ∧
  ∀ g w, s.gp_idx = some g → s.wg_idx = some w → g ≠ w

-- Scratch sanity checks against hand-traces of the Python code.
example :
    swap_goalie_columns_in_rows
      [["Goalies"], ["Pos", "W-G", "GP"], ["G", "12", "30"]] =
    ([["Goalies"], ["Pos", "GP", "W-G"], ["G", "30", "12"]], true) := by decide

example :
    swap_goalie_columns_in_rows
      [["Goalies"], ["Pos", "GP", "W-G"], ["G", "20", "25"], ["G", "30", "12"]] =
    ([["Goalies"], ["Pos", "GP", "W-G"], ["G", "25", "20"], ["G", "30", "12"]], true) := by
  decide

example :
    swap_goalie_columns_in_rows [["Skaters"], ["G", "20", "25"]] =
    ([["Skaters"], ["G", "20", "25"]], false) := by decide

example : _parse_int_prefix " 18-5-3" = some 18 := by decide
example : _parse_int_prefix "" = none := by decide
example : _parse_int_prefix "abc" = none := by decide

example : parse_season_from_filename "regular-2014-2015.csv" = some ("regular", 2014) := by
  decide
example : parse_season_from_filename "playoffs-2020-2021.csv" = some ("playoffs", 2020) := by
  decide
example : parse_season_from_filename "regular-2014-2015.txt" = none := by decide
example : parse_season_from_filename "xregular-2014-2015.csv" = none := by decide
example : parse_season_from_filename "regular-20145-2015.csv" = none := by decide

/-! ### Helper lemmas about `swapCells` and label positions -/

theorem length_swapCells (i j : Nat) (row : List String) :
    (swapCells i j row).length = row.length := by
  simp [swapCells]

theorem getD_swapCells_left {i j : Nat} {row : List String}
    (hij : i ≠ j) (hi : i < row.length) :
    (swapCells i j row).getD i "" = row.getD j "" := by
  unfold swapCells
  rw [List.getD_eq_getD_get?, List.get?_set_ne _ _ (Ne.symm hij),
    List.get?_set_eq_of_lt _ hi]
  rfl

theorem getD_swapCells_right {i j : Nat} {row : List String}
    (hj : j < row.length) :
    (swapCells i j row).getD j "" = row.getD i "" := by
  unfold swapCells
  rw [List.getD_eq_getD_get?,
    List.get?_set_eq_of_lt _ (by simpa using hj)]
  rfl

theorem swapCells_ne {i j : Nat} {row : List String}
    (hij : i ≠ j) (hi : i < row.length)
    (hval : row.getD i "" ≠ row.getD j "") :
    swapCells i j row ≠ row := by
  intro h
  have h2 := @getD_swapCells_left i j row hij hi
  rw [h] at h2
  exact hval h2

theorem getD_indexOf {a : String} {l : List String} (h : a ∈ l) :
    l.getD (l.indexOf a) "" = a := by
  rw [List.getD_eq_getD_get?, List.indexOf_get? h]
  rfl

theorem indexOf_ne_indexOf {a b : String} {l : List String}
    (ha : a ∈ l) (hb : b ∈ l) (hab : a ≠ b) :
    l.indexOf a ≠ l.indexOf b := by
  intro h
  have h1 := getD_indexOf ha
  have h2 := getD_indexOf hb
  rw [h] at h1
  exact hab (h1.symm.trans h2)

/-! ### Branch-evaluation lemmas for `processRow` -/

theorem marker_not_header {row : List String}
    (h : row = ["Goalies"] ∨ row = ["Skaters"]) : ¬IsHeader row := by
  rcases h with h | h <;> rw [h] <;> intro hh <;> simp [IsHeader] at hh

theorem processRow_goalies (s : SwapState) :
    processRow s ["Goalies"] =
      ({ s with in_goalies := true, gp_idx := none, wg_idx := none },
       ["Goalies"]) := by
  rfl

theorem processRow_skaters (s : SwapState) :
    processRow s ["Skaters"] =
      ({ s with in_goalies := false, gp_idx := none, wg_idx := none },
       ["Skaters"]) := by
  rfl

theorem processRow_out (s : SwapState) (row : List String)
    (h1 : row ≠ ["Goalies"]) (h2 : row ≠ ["Skaters"])
    (h3 : s.in_goalies = false) :
    processRow s row = (s, row) := by
  unfold processRow
  rw [if_neg h1, if_neg h2, if_pos h3]

theorem processRow_header_rev (s : SwapState) (row : List String)
    (hin : s.in_goalies = true) (hh : IsHeader row)
    (hrev : row.indexOf "W-G" < row.indexOf "GP") :
    processRow s row =
      ({ s with gp_idx := some (row.indexOf "W-G"),
                wg_idx := some (row.indexOf "GP"),
                swapped_any := true, did_global_column_swap := true },
       swapCells (row.indexOf "GP") (row.indexOf "W-G") row) := by
  have h1 : row ≠ ["Goalies"] := fun h => marker_not_header (Or.inl h) hh
  have h2 : row ≠ ["Skaters"] := fun h => marker_not_header (Or.inr h) hh
  unfold processRow
  rw [if_neg h1, if_neg h2, if_neg (by simp [hin]), if_pos hh, if_pos hrev]

theorem processRow_header_canon (s : SwapState) (row : List String)
    (hin : s.in_goalies = true) (hh : IsHeader row)
    (hcan : ¬row.indexOf "W-G" < row.indexOf "GP") :
    processRow s row =
      ({ s with gp_idx := some (row.indexOf "GP"),
                wg_idx := some (row.indexOf "W-G") }, row) := by
  have h1 : row ≠ ["Goalies"] := fun h => marker_not_header (Or.inl h) hh
  have h2 : row ≠ ["Skaters"] := fun h => marker_not_header (Or.inr h) hh
  unfold processRow
  rw [if_neg h1, if_neg h2, if_neg (by simp [hin]), if_pos hh, if_neg hcan]

theorem processRow_data_global (any : Bool) (g w : Nat) (row : List String)
    (h1 : row ≠ ["Goalies"]) (h2 : row ≠ ["Skaters"]) (hh : ¬IsHeader row)
    (hlen : max g w < row.length) :
    processRow ⟨true, any, some g, some w, true⟩ row =
      (⟨true, true, some g, some w, true⟩, swapCells g w row) := by
  have hne : row ≠ [] := by
    intro h
    rw [h] at hlen
    simp at hlen
  unfold processRow
  rw [if_neg h1, if_neg h2, if_neg (by simp), if_neg hh]
  simp only []
  rw [if_pos ⟨hne, hlen⟩]
  simp

theorem processRow_data_canon (any : Bool) (g w : Nat) (row : List String)
    (h1 : row ≠ ["Goalies"]) (h2 : row ≠ ["Skaters"]) (hh : ¬IsHeader row)
    (hlen : max g w < row.length) :
    processRow ⟨true, any, some g, some w, false⟩ row =
      (match _parse_int_prefix (row.getD g ""), _parse_int_prefix (row.getD w "") with
       | some gp_val, some wg_val =>
         if wg_val > gp_val then
           (⟨true, true, some g, some w, false⟩, swapCells g w row)
         else (⟨true, any, some g, some w, false⟩, row)
       | _, _ => (⟨true, any, some g, some w, false⟩, row)) := by
  have hne : row ≠ [] := by
    intro h
    rw [h] at hlen
    simp at hlen
  unfold processRow
  rw [if_neg h1, if_neg h2, if_neg (by simp), if_neg hh]
  simp only []
  rw [if_pos ⟨hne, hlen⟩, if_neg (by simp)]

theorem processRow_data_none (s : SwapState) (row : List String)
    (h1 : row ≠ ["Goalies"]) (h2 : row ≠ ["Skaters"])
    (hin : s.in_goalies = true) (hh : ¬IsHeader row)
    (h : s.gp_idx = none ∨ s.wg_idx = none) :
    processRow s row = (s, row) := by
  unfold processRow
  rw [if_neg h1, if_neg h2, if_neg (by simp [hin]), if_neg hh]
  match hg : s.gp_idx, hw : s.wg_idx with
  | some g, some w =>
    rcases h with h | h
    · rw [hg] at h
      simp at h
    · rw [hw] at h
      simp at h
  | some g, none => rfl
  | none, some w => rfl
  | none, none => rfl

theorem processRow_data_shortlen (s : SwapState) (row : List String) (g w : Nat)
    (h1 : row ≠ ["Goalies"]) (h2 : row ≠ ["Skaters"])
    (hin : s.in_goalies = true) (hh : ¬IsHeader row)
    (hg : s.gp_idx = some g) (hw : s.wg_idx = some w)
    (hlen : ¬max g w < row.length) :
    processRow s row = (s, row) := by
  unfold processRow
  rw [if_neg h1, if_neg h2, if_neg (by simp [hin]), if_neg hh]
  match hg2 : s.gp_idx, hw2 : s.wg_idx with
  | some g2, some w2 =>
    simp only []
    rw [if_neg]
    intro hc
    rw [hg] at hg2
    rw [hw] at hw2
    injection hg2 with e1
    injection hw2 with e2
    subst e1
    subst e2
    exact hlen hc.2
  | some g2, none => rfl
  | none, some w2 => rfl
  | none, none => rfl

theorem processRow_snd_unchanged (s : SwapState) (row : List String)
    (h : row = ["Goalies"] ∨ row = ["Skaters"] ∨ s.in_goalies = false) :
    (processRow s row).2 = row := by
  rcases h with h | h | h
  · rw [h, processRow_goalies]
  · rw [h, processRow_skaters]
  · by_cases h1 : row = ["Goalies"]
    · rw [h1, processRow_goalies]
    · by_cases h2 : row = ["Skaters"]
      · rw [h2, processRow_skaters]
      · rw [processRow_out s row h1 h2 h]

/-! ### Master case-analysis lemmas for one loop iteration -/

theorem bool_eq_true_of_ne_false {b : Bool} (h : ¬b = false) : b = true := by
  cases b
  · exact absurd rfl h
  · rfl

theorem Inv_initState : Inv initState := by
  constructor
  · intro h
    simp [initState] at h
  · intro g w hg _
    simp [initState] at hg

theorem processRow_in_goalies (s : SwapState) (row : List String) :
    (processRow s row).1.in_goalies =
      (if row = ["Goalies"] then true
       else if row = ["Skaters"] then false else s.in_goalies) := by
  by_cases hG : row = ["Goalies"]
  · rw [hG, processRow_goalies, if_pos rfl]
  · by_cases hS : row = ["Skaters"]
    · rw [hS, processRow_skaters, if_neg (by decide), if_pos rfl]
    · rw [if_neg hG, if_neg hS]
      by_cases hin : s.in_goalies = false
      · rw [processRow_out s row hG hS hin, hin]
      · have hin' := bool_eq_true_of_ne_false hin
        obtain ⟨ing, any, gpi, wgi, glob⟩ := s
        cases ing with
        | false => simp at hin'
        | true =>
          by_cases hh : IsHeader row
          · by_cases hrev : row.indexOf "W-G" < row.indexOf "GP"
            · rw [processRow_header_rev _ _ rfl hh hrev]
            · rw [processRow_header_canon _ _ rfl hh hrev]
          · cases gpi with
            | none =>
              rw [processRow_data_none _ _ hG hS rfl hh (Or.inl rfl)]
            | some g =>
              cases wgi with
              | none =>
                rw [processRow_data_none _ _ hG hS rfl hh (Or.inr rfl)]
              | some w =>
                by_cases hlen : max g w < row.length
                · cases glob with
                  | true =>
                    rw [processRow_data_global any g w row hG hS hh hlen]
                  | false =>
                    rw [processRow_data_canon any g w row hG hS hh hlen]
                    rcases _parse_int_prefix (row.getD g "") with _ | gv
                    · rfl
                    · rcases _parse_int_prefix (row.getD w "") with _ | wv
                      · rfl
                      · simp only []
                        by_cases hcmp : wv > gv
                        · rw [if_pos hcmp]
                        · rw [if_neg hcmp]
                · rw [processRow_data_shortlen _ _ g w hG hS rfl hh rfl rfl hlen]

theorem processRow_inv (s : SwapState) (row : List String) (hInv : Inv s) :
    Inv (processRow s row).1 := by
  obtain ⟨hInv1, hInv2⟩ := hInv
  by_cases hG : row = ["Goalies"]
  · rw [hG, processRow_goalies]
    exact ⟨hInv1, fun g w hg _ => by simp at hg⟩
  · by_cases hS : row = ["Skaters"]
    · rw [hS, processRow_skaters]
      exact ⟨hInv1, fun g w hg _ => by simp at hg⟩
    · by_cases hin : s.in_goalies = false
      · rw [processRow_out s row hG hS hin]
        exact ⟨hInv1, hInv2⟩
      · have hin' := bool_eq_true_of_ne_false hin
        obtain ⟨ing, any, gpi, wgi, glob⟩ := s
        cases ing with
        | false => simp at hin'
        | true =>
          by_cases hh : IsHeader row
          · by_cases hrev : row.indexOf "W-G" < row.indexOf "GP"
            · rw [processRow_header_rev _ _ rfl hh hrev]
              refine ⟨fun _ => rfl, fun g w hg hw => ?_⟩
              injection hg with e1
              injection hw with e2
              rw [← e1, ← e2]
              exact indexOf_ne_indexOf hh.2.2 hh.2.1 (by decide)
            · rw [processRow_header_canon _ _ rfl hh hrev]
              refine ⟨hInv1, fun g w hg hw => ?_⟩
              injection hg with e1
              injection hw with e2
              rw [← e1, ← e2]
              exact indexOf_ne_indexOf hh.2.1 hh.2.2 (by decide)
          · cases gpi with
            | none =>
              rw [processRow_data_none _ _ hG hS rfl hh (Or.inl rfl)]
              exact ⟨hInv1, hInv2⟩
            | some g =>
              cases wgi with
              | none =>
                rw [processRow_data_none _ _ hG hS rfl hh (Or.inr rfl)]
                exact ⟨hInv1, hInv2⟩
              | some w =>
                by_cases hlen : max g w < row.length
                · cases glob with
                  | true =>
                    rw [processRow_data_global any g w row hG hS hh hlen]
                    exact ⟨fun _ => rfl, hInv2⟩
                  | false =>
                    rw [processRow_data_canon any g w row hG hS hh hlen]
                    rcases _parse_int_prefix (row.getD g "") with _ | gv
                    · exact ⟨hInv1, hInv2⟩
                    · rcases _parse_int_prefix (row.getD w "") with _ | wv
                      · exact ⟨hInv1, hInv2⟩
                      · simp only []
                        by_cases hcmp : wv > gv
                        · rw [if_pos hcmp]
                          exact ⟨fun h => by simp at h, hInv2⟩
                        · rw [if_neg hcmp]
                          exact ⟨hInv1, hInv2⟩
                · rw [processRow_data_shortlen _ _ g w hG hS rfl hh rfl rfl hlen]
                  exact ⟨hInv1, hInv2⟩

theorem processRow_shape (s : SwapState) (row : List String) (hInv : Inv s) :
    (processRow s row).2 = row ∨
    ∃ i j, i ≠ j ∧ i < row.length ∧ j < row.length ∧
      (processRow s row).2 = swapCells i j row := by
  obtain ⟨hInv1, hInv2⟩ := hInv
  by_cases hG : row = ["Goalies"]
  · exact Or.inl (processRow_snd_unchanged s row (Or.inl hG))
  · by_cases hS : row = ["Skaters"]
    · exact Or.inl (processRow_snd_unchanged s row (Or.inr (Or.inl hS)))
    · by_cases hin : s.in_goalies = false
      · exact Or.inl (processRow_snd_unchanged s row (Or.inr (Or.inr hin)))
      · have hin' := bool_eq_true_of_ne_false hin
        obtain ⟨ing, any, gpi, wgi, glob⟩ := s
        cases ing with
        | false => simp at hin'
        | true =>
          by_cases hh : IsHeader row
          · by_cases hrev : row.indexOf "W-G" < row.indexOf "GP"
            · rw [processRow_header_rev _ _ rfl hh hrev]
              exact Or.inr ⟨row.indexOf "GP", row.indexOf "W-G",
                indexOf_ne_indexOf hh.2.1 hh.2.2 (by decide),
                List.indexOf_lt_length.mpr hh.2.1,
                List.indexOf_lt_length.mpr hh.2.2, rfl⟩
            · rw [processRow_header_canon _ _ rfl hh hrev]
              exact Or.inl rfl
          · cases gpi with
            | none =>
              rw [processRow_data_none _ _ hG hS rfl hh (Or.inl rfl)]
              exact Or.inl rfl
            | some g =>
              cases wgi with
              | none =>
                rw [processRow_data_none _ _ hG hS rfl hh (Or.inr rfl)]
                exact Or.inl rfl
              | some w =>
                by_cases hlen : max g w < row.length
                · cases glob with
                  | true =>
                    rw [processRow_data_global any g w row hG hS hh hlen]
                    exact Or.inr ⟨g, w, hInv2 g w rfl rfl,
                      lt_of_le_of_lt (le_max_left g w) hlen,
                      lt_of_le_of_lt (le_max_right g w) hlen, rfl⟩
                  | false =>
                    rw [processRow_data_canon any g w row hG hS hh hlen]
                    rcases _parse_int_prefix (row.getD g "") with _ | gv
                    · exact Or.inl rfl
                    · rcases _parse_int_prefix (row.getD w "") with _ | wv
                      · exact Or.inl rfl
                      · simp only []
                        by_cases hcmp : wv > gv
                        · rw [if_pos hcmp]
                          exact Or.inr ⟨g, w, hInv2 g w rfl rfl,
                            lt_of_le_of_lt (le_max_left g w) hlen,
                            lt_of_le_of_lt (le_max_right g w) hlen, rfl⟩
                        · rw [if_neg hcmp]
                          exact Or.inl rfl
                · rw [processRow_data_shortlen _ _ g w hG hS rfl hh rfl rfl hlen]
                  exact Or.inl rfl

theorem processRow_flag (s : SwapState) (row : List String) (hInv : Inv s) :
    ((processRow s row).1.swapped_any = true) ↔
      (s.swapped_any = true ∨ (processRow s row).2 ≠ row) := by
  obtain ⟨hInv1, hInv2⟩ := hInv
  by_cases hG : row = ["Goalies"]
  · rw [hG, processRow_goalies]
    simp
  · by_cases hS : row = ["Skaters"]
    · rw [hS, processRow_skaters]
      simp
    · by_cases hin : s.in_goalies = false
      · rw [processRow_out s row hG hS hin]
        simp
      · have hin' := bool_eq_true_of_ne_false hin
        obtain ⟨ing, any, gpi, wgi, glob⟩ := s
        cases ing with
        | false => simp at hin'
        | true =>
          by_cases hh : IsHeader row
          · by_cases hrev : row.indexOf "W-G" < row.indexOf "GP"
            · rw [processRow_header_rev _ _ rfl hh hrev]
              have hval : row.getD (row.indexOf "GP") "" ≠
                  row.getD (row.indexOf "W-G") "" := by
                rw [getD_indexOf hh.2.1, getD_indexOf hh.2.2]
                decide
              exact iff_of_true rfl (Or.inr (swapCells_ne
                (indexOf_ne_indexOf hh.2.1 hh.2.2 (by decide))
                (List.indexOf_lt_length.mpr hh.2.1) hval))
            · rw [processRow_header_canon _ _ rfl hh hrev]
              simp
          · cases gpi with
            | none =>
              rw [processRow_data_none _ _ hG hS rfl hh (Or.inl rfl)]
              simp
            | some g =>
              cases wgi with
              | none =>
                rw [processRow_data_none _ _ hG hS rfl hh (Or.inr rfl)]
                simp
              | some w =>
                by_cases hlen : max g w < row.length
                · cases glob with
                  | true =>
                    rw [processRow_data_global any g w row hG hS hh hlen]
                    exact iff_of_true rfl (Or.inl (hInv1 rfl))
                  | false =>
                    rw [processRow_data_canon any g w row hG hS hh hlen]
                    rcases hpg : _parse_int_prefix (row.getD g "") with _ | gv
                    · simp
                    · rcases hpw : _parse_int_prefix (row.getD w "") with _ | wv
                      · simp
                      · simp only []
                        by_cases hcmp : wv > gv
                        · rw [if_pos hcmp]
                          have hval : row.getD g "" ≠ row.getD w "" := by
                            intro he
                            rw [he, hpw] at hpg
                            injection hpg with e
                            rw [e] at hcmp
                            exact lt_irrefl gv hcmp
                          exact iff_of_true rfl (Or.inr (swapCells_ne
                            (hInv2 g w rfl rfl)
                            (lt_of_le_of_lt (le_max_left g w) hlen) hval))
                        · rw [if_neg hcmp]
                          simp
                · rw [processRow_data_shortlen _ _ g w hG hS rfl hh rfl rfl hlen]
                  simp

/-! ### Run-level lemmas for the whole row list -/

theorem swap_fst (rows : List (List String)) :
    (swap_goalie_columns_in_rows rows).1 = (processRows initState rows).2 := rfl

theorem swap_snd (rows : List (List String)) :
    (swap_goalie_columns_in_rows rows).2 =
      (processRows initState rows).1.swapped_any := rfl

theorem processRows_cons (s : SwapState) (r : List String)
    (rest : List (List String)) :
    processRows s (r :: rest) =
      ((processRows (processRow s r).1 rest).1,
       (processRow s r).2 :: (processRows (processRow s r).1 rest).2) := rfl

theorem processRows_length (s : SwapState) (rows : List (List String)) :
    (processRows s rows).2.length = rows.length := by
  induction rows generalizing s with
  | nil => rfl
  | cons r rest ih =>
    rw [processRows_cons]
    simp [ih]

theorem processRows_inv (s : SwapState) (rows : List (List String)) (h : Inv s) :
    Inv (processRows s rows).1 := by
  induction rows generalizing s with
  | nil => exact h
  | cons r rest ih =>
    rw [processRows_cons]
    exact ih _ (processRow_inv s r h)

theorem processRows_flag (s : SwapState) (rows : List (List String)) (h : Inv s) :
    ((processRows s rows).1.swapped_any = true) ↔
      (s.swapped_any = true ∨ (processRows s rows).2 ≠ rows) := by
  induction rows generalizing s with
  | nil => simp [processRows]
  | cons r rest ih =>
    have hstep := processRow_flag s r h
    have hih := ih (processRow s r).1 (processRow_inv s r h)
    rw [processRows_cons]
    simp only []
    rw [hih, hstep]
    constructor
    · rintro ((h1 | h1) | h1)
      · exact Or.inl h1
      · refine Or.inr fun he => h1 ?_
        injection he with e1 e2
      · refine Or.inr fun he => h1 ?_
        injection he with e1 e2
    · rintro (h1 | h1)
      · exact Or.inl (Or.inl h1)
      · by_cases h2 : (processRow s r).2 = r
        · refine Or.inr fun h3 => h1 ?_
          rw [h2, h3]
        · exact Or.inl (Or.inr h2)

theorem flagsFrom_cons (b : Bool) (r : List String) (rest : List (List String)) :
    flagsFrom b (r :: rest) =
      b :: flagsFrom
        (if r = ["Goalies"] then true else if r = ["Skaters"] then false else b)
        rest := rfl

theorem processRows_get?_outside (rows : List (List String)) (s : SwapState)
    (k : Nat)
    (h : rows.getD k [] = ["Goalies"] ∨ rows.getD k [] = ["Skaters"] ∨
      (flagsFrom s.in_goalies rows).getD k true = false) :
    (processRows s rows).2.get? k = rows.get? k := by
  induction rows generalizing s k with
  | nil => rfl
  | cons r rest ih =>
    rw [processRows_cons]
    cases k with
    | zero =>
      rw [flagsFrom_cons] at h
      simp only [List.getD_cons_zero] at h
      simp only [List.get?_cons_zero]
      rw [processRow_snd_unchanged s r h]
    | succ k =>
      simp only [List.get?_cons_succ]
      apply ih
      rw [processRow_in_goalies]
      rcases h with h | h | h
      · left
        simpa using h
      · right
        left
        simpa using h
      · right
        right
        rw [flagsFrom_cons] at h
        simpa using h

theorem processRows_rowwise (rows : List (List String)) (s : SwapState)
    (hInv : Inv s) (k : Nat) :
    ((processRows s rows).2.getD k []).length = (rows.getD k []).length ∧
    ((processRows s rows).2.getD k [] ≠ rows.getD k [] →
      ∃ i j, i ≠ j ∧ i < (rows.getD k []).length ∧ j < (rows.getD k []).length ∧
        (processRows s rows).2.getD k [] = swapCells i j (rows.getD k [])) := by
  induction rows generalizing s k with
  | nil =>
    constructor
    · rfl
    · intro h
      exact absurd rfl h
  | cons r rest ih =>
    rw [processRows_cons]
    cases k with
    | zero =>
      simp only [List.getD_cons_zero]
      constructor
      · rcases processRow_shape s r hInv with h | ⟨i, j, _, _, _, h⟩
        · rw [h]
        · rw [h, length_swapCells]
      · intro hne
        rcases processRow_shape s r hInv with h | ⟨i, j, hij, hi, hj, h⟩
        · exact absurd h hne
        · exact ⟨i, j, hij, hi, hj, h⟩
    | succ k =>
      simp only [List.getD_cons_succ]
      exact ih (processRow s r).1 (processRow_inv s r hInv) k

/-- C3 (confirmed): the boolean returned by `swap_goalie_columns_in_rows`
is `true` exactly when some emitted row differs from the corresponding
input row.  (The inner `↔` is over positions: `get? k` of the output
differs from `get? k` of the input for some `k`.) -/
theorem c3_changed_flag_iff_some_row_differs (rows : List (List String)) :
    (swap_goalie_columns_in_rows rows).2 = true ↔
      ∃ k, (swap_goalie_columns_in_rows rows).1.get? k ≠ rows.get? k := by
  rw [swap_snd, processRows_flag initState rows Inv_initState]
  simp only [swap_fst]
  constructor
  · rintro (h1 | h1)
    · exact absurd h1 (by decide)
    · by_contra hc
      push_neg at hc
      exact h1 (List.ext_get?_iff.mpr hc)
  · rintro ⟨k, hk⟩
    exact Or.inr fun he => hk (by rw [he])

/-- C4 (confirmed): any row outside every "Goalies"…"Skaters" span — that
is, any row at which the section flag recomputed by `flagsFrom false` is
`false` — and any section-marker row is emitted byte-for-byte unchanged. -/
theorem c4_outside_rows_unchanged (rows : List (List String)) (k : Nat)
    (h : rows.getD k [] = ["Goalies"] ∨ rows.getD k [] = ["Skaters"] ∨
      (flagsFrom false rows).getD k true = false) :
    (swap_goalie_columns_in_rows rows).1.get? k = rows.get? k := by
  rw [swap_fst]
  exact processRows_get?_outside rows initState k h

theorem c4_witness :
    (swap_goalie_columns_in_rows
        [["X", "Y"], ["Goalies"], ["Pos", "W-G", "GP"]]).1.get? 0 =
      some ["X", "Y"] :=
  (c4_outside_rows_unchanged [["X", "Y"], ["Goalies"], ["Pos", "W-G", "GP"]] 0
    (Or.inr (Or.inr (by decide)))).trans (by decide)

/-- C8 (confirmed): the output has the same length and order as the input,
each output row has as many cells as its input row, and an output row that
differs from its input row is exactly that row with the two cells at the
tracked (distinct, in-range) indices exchanged. -/
theorem c8_frame (rows : List (List String)) :
    (swap_goalie_columns_in_rows rows).1.length = rows.length ∧
    ∀ k, ((swap_goalie_columns_in_rows rows).1.getD k []).length =
        (rows.getD k []).length ∧
      ((swap_goalie_columns_in_rows rows).1.getD k [] ≠ rows.getD k [] →
        ∃ i j, i ≠ j ∧ i < (rows.getD k []).length ∧
          j < (rows.getD k []).length ∧
          (swap_goalie_columns_in_rows rows).1.getD k [] =
            swapCells i j (rows.getD k [])) := by
  simp only [swap_fst]
  exact ⟨processRows_length initState rows,
    fun k => processRows_rowwise rows initState Inv_initState k⟩

theorem c8_frame_witness :
    ∃ i j, i ≠ j ∧
      i < (([["Goalies"], ["Pos", "W-G", "GP"]].getD 1 []).length) ∧
      j < (([["Goalies"], ["Pos", "W-G", "GP"]].getD 1 []).length) ∧
      (swap_goalie_columns_in_rows [["Goalies"], ["Pos", "W-G", "GP"]]).1.getD 1 [] =
        swapCells i j ([["Goalies"], ["Pos", "W-G", "GP"]].getD 1 []) :=
  ((c8_frame [["Goalies"], ["Pos", "W-G", "GP"]]).2 1).2 (by decide)

theorem processRows_global_section (rest : List (List String)) (any : Bool)
    (g w : Nat)
    (hrest : ∀ r ∈ rest, r ≠ ["Goalies"] ∧ r ≠ ["Skaters"] ∧ ¬IsHeader r) :
    (processRows ⟨true, any, some g, some w, true⟩ rest).2 =
      rest.map (fun r => if max g w < r.length then swapCells g w r else r) := by
  induction rest generalizing any with
  | nil => rfl
  | cons r rs ih =>
    obtain ⟨h1, h2, h3⟩ := hrest r (List.mem_cons_self r rs)
    rw [processRows_cons]
    simp only [List.map_cons]
    by_cases hlen : max g w < r.length
    · rw [processRow_data_global any g w r h1 h2 h3 hlen]
      simp only [if_pos hlen]
      rw [ih true (fun x hx => hrest x (List.mem_cons_of_mem r hx))]
    · rw [processRow_data_shortlen _ _ g w h1 h2 rfl h3 rfl rfl hlen]
      simp only [if_neg hlen]
      rw [ih any (fun x hx => hrest x (List.mem_cons_of_mem r hx))]

/-- C5 (confirmed): in a Goalies section whose header lists "W-G" before
"GP", the header's two label cells are exchanged (so "GP" now sits at the
smaller index and "W-G" at the larger one) and every following data row of
the section that is long enough to cover both tracked positions has the
cells at those two positions exchanged; shorter rows pass unchanged. -/
theorem c5_header_reversed_section (s : SwapState) (hdr : List String)
    (rest : List (List String))
    (hin : s.in_goalies = true) (hh : IsHeader hdr)
    (hrev : hdr.indexOf "W-G" < hdr.indexOf "GP")
    (hrest : ∀ r ∈ rest, r ≠ ["Goalies"] ∧ r ≠ ["Skaters"] ∧ ¬IsHeader r) :
    (processRows s (hdr :: rest)).2 =
      swapCells (hdr.indexOf "GP") (hdr.indexOf "W-G") hdr ::
        rest.map (fun r =>
          if max (hdr.indexOf "W-G") (hdr.indexOf "GP") < r.length then
            swapCells (hdr.indexOf "W-G") (hdr.indexOf "GP") r
          else r) ∧
    (swapCells (hdr.indexOf "GP") (hdr.indexOf "W-G") hdr).getD
        (hdr.indexOf "W-G") "" = "GP" ∧
    (swapCells (hdr.indexOf "GP") (hdr.indexOf "W-G") hdr).getD
        (hdr.indexOf "GP") "" = "W-G" := by
  obtain ⟨ing, any, gpi, wgi, glob⟩ := s
  cases ing with
  | false => simp at hin
  | true =>
    refine ⟨?_, ?_, ?_⟩
    · rw [processRows_cons]
      simp only []
      rw [processRow_header_rev _ _ rfl hh hrev]
      simp only []
      rw [processRows_global_section rest true (hdr.indexOf "W-G")
        (hdr.indexOf "GP") hrest]
    · rw [getD_swapCells_right (List.indexOf_lt_length.mpr hh.2.2)]
      exact getD_indexOf hh.2.1
    · rw [getD_swapCells_left (indexOf_ne_indexOf hh.2.1 hh.2.2 (by decide))
        (List.indexOf_lt_length.mpr hh.2.1)]
      exact getD_indexOf hh.2.2

theorem c5_witness :
    (processRows ⟨true, false, none, none, false⟩
        [["Pos", "W-G", "GP"], ["G", "3", "10"], ["Totals", "1", "2"]]).2 =
      [["Pos", "GP", "W-G"], ["G", "10", "3"], ["Totals", "2", "1"]] := by
  have h := c5_header_reversed_section ⟨true, false, none, none, false⟩
    ["Pos", "W-G", "GP"] [["G", "3", "10"], ["Totals", "1", "2"]]
    rfl (by decide) (by decide) (by decide)
  exact h.1.trans (by decide)

/-- C6 (confirmed): in a Goalies section with known tracked indices and
global swap mode inactive (header already canonical), a data row covering
both indices is swapped exactly when the leading integer of both tracked
cells parses and the value at the "W-G" index strictly exceeds the value
at the "GP" index; otherwise it is emitted unchanged. -/
theorem c6_heuristic_swap_iff (any : Bool) (g w : Nat) (row : List String)
    (h1 : row ≠ ["Goalies"]) (h2 : row ≠ ["Skaters"]) (hh : ¬IsHeader row)
    (hlen : max g w < row.length) :
    (processRow ⟨true, any, some g, some w, false⟩ row).2 =
      (match _parse_int_prefix (row.getD g ""), _parse_int_prefix (row.getD w "") with
       | some gp_val, some wg_val =>
         if wg_val > gp_val then swapCells g w row else row
       | _, _ => row) := by
  rw [processRow_data_canon any g w row h1 h2 hh hlen]
  rcases _parse_int_prefix (row.getD g "") with _ | gv
  · rfl
  · rcases _parse_int_prefix (row.getD w "") with _ | wv
    · rfl
    · simp only []
      by_cases hcmp : wv > gv
      · rw [if_pos hcmp, if_pos hcmp]
      · rw [if_neg hcmp, if_neg hcmp]

theorem c6_witness :
    (processRow ⟨true, false, some 2, some 3, false⟩ ["G", "x", "20", "25"]).2 =
      ["G", "x", "25", "20"] ∧
    (processRow ⟨true, false, some 2, some 3, false⟩ ["G", "y", "30", "12"]).2 =
      ["G", "y", "30", "12"] :=
  ⟨(c6_heuristic_swap_iff false 2 3 ["G", "x", "20", "25"] (by decide) (by decide)
      (by decide) (by decide)).trans (by decide),
   (c6_heuristic_swap_iff false 2 3 ["G", "y", "30", "12"] (by decide) (by decide)
      (by decide) (by decide)).trans (by decide)⟩

/-- C7 counterexample: inside a Goalies section whose header was reversed,
a data row whose tracked cells have NO leading integer is still modified
(the global swap applies unconditionally), contradicting the claim that
such rows are always emitted unchanged. -/
theorem c7_counterexample :
    (swap_goalie_columns_in_rows ex_c7).1 =
      [["Goalies"], ["Pos", "GP", "W-G"], ["G", "xyz", "abc"]] ∧
    _parse_int_prefix "abc" = none ∧ _parse_int_prefix "xyz" = none ∧
    (swap_goalie_columns_in_rows ex_c7).1.getD 2 [] ≠ ex_c7.getD 2 [] := by
  decide

/-- C7 (corrected): when global swap mode is NOT active, a data row whose
cell at either tracked index is empty or has no leading integer is emitted
unchanged and the state is untouched (no fault). -/
theorem c7_nonnumeric_row_unchanged (any : Bool) (g w : Nat) (row : List String)
    (h1 : row ≠ ["Goalies"]) (h2 : row ≠ ["Skaters"]) (hh : ¬IsHeader row)
    (hp : _parse_int_prefix (row.getD g "") = none ∨
      _parse_int_prefix (row.getD w "") = none) :
    processRow ⟨true, any, some g, some w, false⟩ row =
      (⟨true, any, some g, some w, false⟩, row) := by
  by_cases hlen : max g w < row.length
  · rw [processRow_data_canon any g w row h1 h2 hh hlen]
    rcases hp with hp | hp
    · rw [hp]
    · rw [hp]
      rcases _parse_int_prefix (row.getD g "") with _ | gv <;> rfl
  · exact processRow_data_shortlen _ _ g w h1 h2 rfl hh rfl rfl hlen

theorem c7_witness :
    processRow ⟨true, false, some 1, some 2, false⟩ ["G", "abc", "xyz"] =
      (⟨true, false, some 1, some 2, false⟩, ["G", "abc", "xyz"]) :=
  c7_nonnumeric_row_unchanged false 1 2 ["G", "abc", "xyz"] (by decide) (by decide)
    (by decide) (Or.inl (by decide))

/-- C9 counterexample: on `ex_c9` the code returns the input unchanged with
flag `false`, although under the FIRST header's indices (1, 2) the data row
`["G", "1", "5", "3"]` would have been swapped (second conjunct): the later
header-like row `["Pos", "X", "GP", "W-G"]` re-assigned the indices to
(2, 3), so the first header does not govern the rest of the section. -/
theorem c9_counterexample :
    swap_goalie_columns_in_rows ex_c9 = (ex_c9, false) ∧
    (processRows ⟨true, false, some 1, some 2, false⟩ [["G", "1", "5", "3"]]).2 =
      [["G", "5", "1", "3"]] := by
  decide

/-- C9 (corrected): within a Goalies section, EVERY row whose first cell is
"Pos" and which contains both labels (re)defines the tracked indices from
its own label positions (canonicalised when reversed), and every other
non-marker row leaves the tracked indices unchanged — so the most recently
seen header-like row, not necessarily the first, governs subsequent rows. -/
theorem c9_latest_header_defines_indices (s : SwapState) (row : List String)
    (hin : s.in_goalies = true)
    (h1 : row ≠ ["Goalies"]) (h2 : row ≠ ["Skaters"]) :
    (IsHeader row →
      (processRow s row).1.gp_idx =
        some (if row.indexOf "W-G" < row.indexOf "GP" then row.indexOf "W-G"
          else row.indexOf "GP") ∧
      (processRow s row).1.wg_idx =
        some (if row.indexOf "W-G" < row.indexOf "GP" then row.indexOf "GP"
          else row.indexOf "W-G")) ∧
    (¬IsHeader row →
      (processRow s row).1.gp_idx = s.gp_idx ∧
      (processRow s row).1.wg_idx = s.wg_idx) := by
  constructor
  · intro hh
    by_cases hrev : row.indexOf "W-G" < row.indexOf "GP"
    · rw [processRow_header_rev s row hin hh hrev, if_pos hrev, if_pos hrev]
      exact ⟨rfl, rfl⟩
    · rw [processRow_header_canon s row hin hh hrev, if_neg hrev, if_neg hrev]
      exact ⟨rfl, rfl⟩
  · intro hh
    obtain ⟨ing, any, gpi, wgi, glob⟩ := s
    cases ing with
    | false => simp at hin
    | true =>
      cases gpi with
      | none =>
        rw [processRow_data_none _ _ h1 h2 rfl hh (Or.inl rfl)]
        exact ⟨rfl, rfl⟩
      | some g =>
        cases wgi with
        | none =>
          rw [processRow_data_none _ _ h1 h2 rfl hh (Or.inr rfl)]
          exact ⟨rfl, rfl⟩
        | some w =>
          by_cases hlen : max g w < row.length
          · cases glob with
            | true =>
              rw [processRow_data_global any g w row h1 h2 hh hlen]
              exact ⟨rfl, rfl⟩
            | false =>
              rw [processRow_data_canon any g w row h1 h2 hh hlen]
              rcases _parse_int_prefix (row.getD g "") with _ | gv
              · exact ⟨rfl, rfl⟩
              · rcases _parse_int_prefix (row.getD w "") with _ | wv
                · exact ⟨rfl, rfl⟩
                · simp only []
                  by_cases hcmp : wv > gv
                  · rw [if_pos hcmp]
                    exact ⟨rfl, rfl⟩
                  · rw [if_neg hcmp]
                    exact ⟨rfl, rfl⟩
          · rw [processRow_data_shortlen _ _ g w h1 h2 rfl hh rfl rfl hlen]
            exact ⟨rfl, rfl⟩

theorem c9_witness :
    (processRow stateCanon12 ["Pos", "X", "GP", "W-G"]).1.gp_idx = some 2 ∧
    (processRow stateCanon12 ["Pos", "X", "GP", "W-G"]).1.wg_idx = some 3 := by
  have h := (c9_latest_header_defines_indices stateCanon12
    ["Pos", "X", "GP", "W-G"] (by decide) (by decide) (by decide)).1 (by decide)
  exact ⟨h.1.trans (by decide), h.2.trans (by decide)⟩

/-! ### Lemmas about the filename matcher -/

theorem matchLit_eq_some {lit cs r : List Char} :
    matchLit lit cs = some r ↔
      cs.take lit.length = lit ∧ r = cs.drop lit.length := by
  unfold matchLit
  split
  · next h => simp [h, eq_comm]
  · next h => simp [h]

theorem take4DigitsVal_eq_some {cs r : List Char} {v : Nat} :
    take4DigitsVal cs = some (v, r) ↔
      (4 ≤ cs.length ∧ (cs.take 4).all Char.isDigit) ∧
        v = digitsVal (cs.take 4) ∧ r = cs.drop 4 := by
  unfold take4DigitsVal
  split
  · next h => simp [h, eq_comm, and_assoc]
  · next h =>
    constructor
    · intro hc
      exact absurd hc (by simp)
    · rintro ⟨hc, -⟩
      exact absurd hc h

theorem matchLit_append {lit xs r : List Char} (t : List Char)
    (h : matchLit lit xs = some r) :
    matchLit lit (xs ++ t) = some (r ++ t) := by
  rw [matchLit_eq_some] at h ⊢
  obtain ⟨h1, h2⟩ := h
  have hlen : lit.length ≤ xs.length := by
    have h3 := congrArg List.length h1
    rw [List.length_take] at h3
    exact min_eq_left_iff.mp h3
  have hz : lit.length - xs.length = 0 := by omega
  constructor
  · rw [List.take_append_eq_append_take, hz]
    simpa using h1
  · rw [List.drop_append_eq_append_drop, hz, h2]
    simp

theorem take4DigitsVal_append {xs r : List Char} {v : Nat} (t : List Char)
    (h : take4DigitsVal xs = some (v, r)) :
    take4DigitsVal (xs ++ t) = some (v, r ++ t) := by
  rw [take4DigitsVal_eq_some] at h ⊢
  obtain ⟨⟨hlen, hdig⟩, hv, hr⟩ := h
  have hz : 4 - xs.length = 0 := by omega
  refine ⟨⟨?_, ?_⟩, ?_, ?_⟩
  · rw [List.length_append]
    omega
  · rw [List.take_append_eq_append_take, hz]
    simpa using hdig
  · rw [List.take_append_eq_append_take, hz]
    simpa using hv
  · rw [List.drop_append_eq_append_drop, hz, hr]
    simp

theorem matchReport_append {xs r : List Char} {rep : String} (t : List Char)
    (h : matchReport xs = some (rep, r)) :
    matchReport (xs ++ t) = some (rep, r ++ t) := by
  unfold matchReport at h ⊢
  cases hreg : matchLit "regular".toList xs with
  | some r0 =>
    rw [hreg] at h
    injection h with h'
    injection h' with e1 e2
    subst e1
    subst e2
    rw [matchLit_append t hreg]
  | none =>
    rw [hreg] at h
    cases hpl : matchLit "playoffs".toList xs with
    | none =>
      rw [hpl] at h
      simp at h
    | some r0 =>
      rw [hpl] at h
      injection h with h'
      injection h' with e1 e2
      subst e1
      subst e2
      have h9 := (matchLit_eq_some.mp hpl).1
      have e9 : ("playoffs".toList).length = 8 := by decide
      have e7 : ("regular".toList).length = 7 := by decide
      rw [e9] at h9
      have hlen9 : 8 ≤ xs.length := by
        have h3 := congrArg List.length h9
        rw [List.length_take, e9] at h3
        exact min_eq_left_iff.mp h3
      have hreg2 : matchLit "regular".toList (xs ++ t) = none := by
        cases hcase : matchLit "regular".toList (xs ++ t) with
        | none => rfl
        | some rr =>
          exfalso
          have h7 := (matchLit_eq_some.mp hcase).1
          rw [e7, List.take_append_eq_append_take] at h7
          have hz : 7 - xs.length = 0 := by omega
          rw [hz] at h7
          simp only [List.take_zero, List.append_nil] at h7
          have h77 : xs.take 7 = ("playoffs".toList).take 7 := by
            rw [← h9, List.take_take]
            simp
          rw [h77] at h7
          exact absurd h7 (by decide)
      rw [hreg2, matchLit_append t hpl]

theorem matchLit_removal {lit xs r' : List Char}
    (hnl : ('\n') ∉ lit)
    (h : matchLit lit (xs ++ ['\n']) = some r') :
    ∃ r0, matchLit lit xs = some r0 ∧ r' = r0 ++ ['\n'] := by
  obtain ⟨h1, h2⟩ := matchLit_eq_some.mp h
  have hle : lit.length ≤ xs.length := by
    by_contra hgt
    push_neg at hgt
    have hall : (xs ++ ['\n']).length ≤ lit.length := by
      rw [List.length_append, List.length_singleton]
      omega
    rw [List.take_all_of_le hall] at h1
    apply hnl
    rw [← h1]
    simp
  have hz : lit.length - xs.length = 0 := by omega
  refine ⟨xs.drop lit.length, ?_, ?_⟩
  · rw [matchLit_eq_some]
    refine ⟨?_, rfl⟩
    rw [List.take_append_eq_append_take, hz] at h1
    simpa using h1
  · rw [h2, List.drop_append_eq_append_drop, hz]
    simp

theorem take4DigitsVal_removal {xs r' : List Char} {v : Nat}
    (h : take4DigitsVal (xs ++ ['\n']) = some (v, r')) :
    ∃ r0, take4DigitsVal xs = some (v, r0) ∧ r' = r0 ++ ['\n'] := by
  obtain ⟨⟨hlen, hdig⟩, hv, hr⟩ := take4DigitsVal_eq_some.mp h
  have hle : 4 ≤ xs.length := by
    by_contra hgt
    push_neg at hgt
    have hall : (xs ++ ['\n']).length ≤ 4 := by
      rw [List.length_append, List.length_singleton]
      omega
    rw [List.take_all_of_le hall, List.all_append] at hdig
    exact absurd (Bool.and_elim_right hdig) (by decide)
  have hz : 4 - xs.length = 0 := by omega
  refine ⟨xs.drop 4, ?_, ?_⟩
  · rw [take4DigitsVal_eq_some]
    refine ⟨⟨hle, ?_⟩, ?_, rfl⟩
    · rw [List.take_append_eq_append_take, hz] at hdig
      simpa using hdig
    · rw [List.take_append_eq_append_take, hz] at hv
      simpa using hv
  · rw [hr, List.drop_append_eq_append_drop, hz]
    simp

theorem matchReport_removal {xs r' : List Char} {rep : String}
    (h : matchReport (xs ++ ['\n']) = some (rep, r')) :
    ∃ r0, matchReport xs = some (rep, r0) ∧ r' = r0 ++ ['\n'] := by
  unfold matchReport at h ⊢
  cases hreg : matchLit "regular".toList (xs ++ ['\n']) with
  | some rr =>
    rw [hreg] at h
    injection h with h'
    injection h' with e1 e2
    subst e1
    subst e2
    obtain ⟨r0, hr0, he⟩ := matchLit_removal (by decide) hreg
    rw [hr0]
    exact ⟨r0, rfl, he⟩
  | none =>
    rw [hreg] at h
    cases hpl : matchLit "playoffs".toList (xs ++ ['\n']) with
    | none =>
      rw [hpl] at h
      simp at h
    | some rr =>
      rw [hpl] at h
      injection h with h'
      injection h' with e1 e2
      subst e1
      subst e2
      obtain ⟨r0, hr0, he⟩ := matchLit_removal (by decide) hpl
      have hregxs : matchLit "regular".toList xs = none := by
        cases hcase : matchLit "regular".toList xs with
        | none => rfl
        | some rr2 =>
          exfalso
          have h2 := matchLit_append ['\n'] hcase
          rw [h2] at hreg
          cases hreg
      rw [hregxs, hr0]
      exact ⟨r0, rfl, he⟩

theorem matchLit_suffix {lit cs r : List Char} (h : matchLit lit cs = some r) :
    r.IsSuffix cs := by
  obtain ⟨-, h2⟩ := matchLit_eq_some.mp h
  rw [h2]
  exact List.drop_suffix _ _

theorem take4DigitsVal_suffix {cs r : List Char} {v : Nat}
    (h : take4DigitsVal cs = some (v, r)) : r.IsSuffix cs := by
  obtain ⟨-, -, h2⟩ := take4DigitsVal_eq_some.mp h
  rw [h2]
  exact List.drop_suffix _ _

theorem matchReport_suffix {cs r : List Char} {rep : String}
    (h : matchReport cs = some (rep, r)) : r.IsSuffix cs := by
  unfold matchReport at h
  cases hreg : matchLit "regular".toList cs with
  | some r0 =>
    rw [hreg] at h
    injection h with h'
    injection h' with e1 e2
    subst e2
    exact matchLit_suffix hreg
  | none =>
    rw [hreg] at h
    cases hpl : matchLit "playoffs".toList cs with
    | none =>
      rw [hpl] at h
      simp at h
    | some r0 =>
      rw [hpl] at h
      injection h with h'
      injection h' with e1 e2
      subst e2
      exact matchLit_suffix hpl

theorem matchFilenameCore_append {xs rest : List Char} {rep : String}
    {y1 y2 : Nat} (t : List Char)
    (h : matchFilenameCore xs = some (rep, y1, y2, rest)) :
    matchFilenameCore (xs ++ t) = some (rep, y1, y2, rest ++ t) := by
  unfold matchFilenameCore at h ⊢
  cases h1 : matchReport xs with
  | none =>
    rw [h1] at h
    simp at h
  | some p =>
    obtain ⟨rep0, r1⟩ := p
    rw [h1] at h
    simp only [] at h
    rw [matchReport_append t h1]
    simp only []
    cases h2 : matchLit ['-'] r1 with
    | none =>
      rw [h2] at h
      simp at h
    | some r2 =>
      rw [h2] at h
      simp only [] at h
      rw [matchLit_append t h2]
      simp only []
      cases h3 : take4DigitsVal r2 with
      | none =>
        rw [h3] at h
        simp at h
      | some q3 =>
        obtain ⟨y10, r3⟩ := q3
        rw [h3] at h
        simp only [] at h
        rw [take4DigitsVal_append t h3]
        simp only []
        cases h4 : matchLit ['-'] r3 with
        | none =>
          rw [h4] at h
          simp at h
        | some r4 =>
          rw [h4] at h
          simp only [] at h
          rw [matchLit_append t h4]
          simp only []
          cases h5 : take4DigitsVal r4 with
          | none =>
            rw [h5] at h
            simp at h
          | some q5 =>
            obtain ⟨y20, r5⟩ := q5
            rw [h5] at h
            simp only [] at h
            rw [take4DigitsVal_append t h5]
            simp only []
            cases h6 : matchLit ".csv".toList r5 with
            | none =>
              rw [h6] at h
              simp at h
            | some r6 =>
              rw [h6] at h
              simp only [] at h
              rw [matchLit_append t h6]
              simp only []
              injection h with h'
              injection h' with e1 h''
              injection h'' with e2 h'''
              injection h''' with e3 e4
              subst e1
              subst e2
              subst e3
              subst e4
              rfl

theorem matchFilenameCore_removal {xs rest' : List Char} {rep : String}
    {y1 y2 : Nat}
    (h : matchFilenameCore (xs ++ ['\n']) = some (rep, y1, y2, rest')) :
    ∃ rest0, matchFilenameCore xs = some (rep, y1, y2, rest0) ∧
      rest' = rest0 ++ ['\n'] := by
  unfold matchFilenameCore at h ⊢
  cases h1 : matchReport (xs ++ ['\n']) with
  | none =>
    rw [h1] at h
    simp at h
  | some p =>
    obtain ⟨rep0, r1'⟩ := p
    rw [h1] at h
    simp only [] at h
    obtain ⟨r1, hr1, he1⟩ := matchReport_removal h1
    subst he1
    rw [hr1]
    simp only []
    cases h2 : matchLit ['-'] (r1 ++ ['\n']) with
    | none =>
      rw [h2] at h
      simp at h
    | some r2' =>
      rw [h2] at h
      simp only [] at h
      obtain ⟨r2, hr2, he2⟩ := matchLit_removal (by decide) h2
      subst he2
      rw [hr2]
      simp only []
      cases h3 : take4DigitsVal (r2 ++ ['\n']) with
      | none =>
        rw [h3] at h
        simp at h
      | some q3 =>
        obtain ⟨y10, r3'⟩ := q3
        rw [h3] at h
        simp only [] at h
        obtain ⟨r3, hr3, he3⟩ := take4DigitsVal_removal h3
        subst he3
        rw [hr3]
        simp only []
        cases h4 : matchLit ['-'] (r3 ++ ['\n']) with
        | none =>
          rw [h4] at h
          simp at h
        | some r4' =>
          rw [h4] at h
          simp only [] at h
          obtain ⟨r4, hr4, he4⟩ := matchLit_removal (by decide) h4
          subst he4
          rw [hr4]
          simp only []
          cases h5 : take4DigitsVal (r4 ++ ['\n']) with
          | none =>
            rw [h5] at h
            simp at h
          | some q5 =>
            obtain ⟨y20, r5'⟩ := q5
            rw [h5] at h
            simp only [] at h
            obtain ⟨r5, hr5, he5⟩ := take4DigitsVal_removal h5
            subst he5
            rw [hr5]
            simp only []
            cases h6 : matchLit ".csv".toList (r5 ++ ['\n']) with
            | none =>
              rw [h6] at h
              simp at h
            | some r6' =>
              rw [h6] at h
              simp only [] at h
              obtain ⟨r6, hr6, he6⟩ := matchLit_removal (by decide) h6
              subst he6
              rw [hr6]
              simp only []
              injection h with h'
              injection h' with e1 h''
              injection h'' with e2 h'''
              injection h''' with e3 e4
              subst e1
              subst e2
              subst e3
              exact ⟨r6, rfl, e4.symm⟩

theorem matchFilenameCore_rest_suffix {cs rest : List Char} {rep : String}
    {y1 y2 : Nat}
    (h : matchFilenameCore cs = some (rep, y1, y2, rest)) :
    rest.IsSuffix cs := by
  unfold matchFilenameCore at h
  cases h1 : matchReport cs with
  | none =>
    rw [h1] at h
    simp at h
  | some p =>
    obtain ⟨rep0, r1⟩ := p
    rw [h1] at h
    simp only [] at h
    cases h2 : matchLit ['-'] r1 with
    | none =>
      rw [h2] at h
      simp at h
    | some r2 =>
      rw [h2] at h
      simp only [] at h
      cases h3 : take4DigitsVal r2 with
      | none =>
        rw [h3] at h
        simp at h
      | some q3 =>
        obtain ⟨y10, r3⟩ := q3
        rw [h3] at h
        simp only [] at h
        cases h4 : matchLit ['-'] r3 with
        | none =>
          rw [h4] at h
          simp at h
        | some r4 =>
          rw [h4] at h
          simp only [] at h
          cases h5 : take4DigitsVal r4 with
          | none =>
            rw [h5] at h
            simp at h
          | some q5 =>
            obtain ⟨y20, r5⟩ := q5
            rw [h5] at h
            simp only [] at h
            cases h6 : matchLit ".csv".toList r5 with
            | none =>
              rw [h6] at h
              simp at h
            | some r6 =>
              rw [h6] at h
              simp only [] at h
              injection h with h'
              injection h' with e1 h''
              injection h'' with e2 h'''
              injection h''' with e3 e4
              subst e4
              exact ((((matchLit_suffix h6).trans
                (take4DigitsVal_suffix h5)).trans
                  ((matchLit_suffix h4).trans
                    (take4DigitsVal_suffix h3))).trans
                      ((matchLit_suffix h2).trans
                        (matchReport_suffix h1)))

theorem dollarAccepts_append_newline (rest0 : List Char) :
    dollarAccepts (rest0 ++ ['\n']) = true ↔ rest0 = [] := by
  unfold dollarAccepts
  simp only [Bool.or_eq_true, decide_eq_true_eq]
  constructor
  · rintro (h | h)
    · exact absurd h (by simp)
    · have h3 := congrArg List.length h
      rw [List.length_append, List.length_singleton] at h3
      have h4 : rest0.length = 0 := by omega
      exact List.eq_nil_of_length_eq_zero h4
  · rintro rfl
    right
    rfl

/-- C10 counterexample: the filename "regular-2014-2015.csv" followed by a
line-feed is NOT an entire match of `<report>-<digit×4>-<digit×4>.csv`
(the spec-worded matcher rejects it), yet `parse_season_from_filename`
returns the pair: Python's `$` also matches just before one trailing
newline. -/
theorem c10_counterexample :
    parse_season_from_filename "regular-2014-2015.csv\n" =
      some ("regular", 2014) ∧
    claimParseSeason "regular-2014-2015.csv\n" = none := by
  decide

/-- C10 (corrected): `parse_season_from_filename` returns the
(report, first-year) pair exactly when the filename, after removing at
most one trailing line-feed, entirely matches
`<report>-<digit×4>-<digit×4>.csv`; equivalently, it agrees with the
claim-worded entire-match parser applied to `stripTrailingNewline` of the
filename.  On every non-matching filename it returns `none` without
faulting. -/
theorem c10_season_parse_strips_one_newline (name : String) :
    parse_season_from_filename name =
      claimParseSeason (stripTrailingNewline name) := by
  unfold parse_season_from_filename claimParseSeason stripTrailingNewline
  by_cases hnl : name.toList.getLast? = some '\n'
  · rw [if_pos hnl]
    have hsplit : name.toList.dropLast ++ ['\n'] = name.toList :=
      List.dropLast_append_getLast? '\n' (Option.mem_def.mpr hnl)
    have hxs : (String.mk name.toList.dropLast).toList =
        name.toList.dropLast := rfl
    rw [hxs]
    cases hc : matchFilenameCore name.toList.dropLast with
    | none =>
      have hc2 : matchFilenameCore name.toList = none := by
        cases hc3 : matchFilenameCore name.toList with
        | none => rfl
        | some q =>
          obtain ⟨rep, y1, y2, rest'⟩ := q
          rw [← hsplit] at hc3
          obtain ⟨rest0, hc4, -⟩ := matchFilenameCore_removal hc3
          rw [hc] at hc4
          cases hc4
      rw [hc2]
    | some q =>
      obtain ⟨rep, y1, y2, rest0⟩ := q
      have hc2 : matchFilenameCore name.toList =
          some (rep, y1, y2, rest0 ++ ['\n']) := by
        rw [← hsplit]
        exact matchFilenameCore_append ['\n'] hc
      rw [hc2]
      simp only []
      by_cases hre : rest0 = []
      · subst hre
        rw [if_pos ((dollarAccepts_append_newline []).mpr rfl), if_pos rfl]
      · rw [if_neg (fun hd => hre ((dollarAccepts_append_newline rest0).mp hd)),
          if_neg hre]
  · rw [if_neg hnl]
    cases hc : matchFilenameCore name.toList with
    | none => rfl
    | some q =>
      obtain ⟨rep, y1, y2, rest⟩ := q
      simp only []
      by_cases hre : rest = []
      · subst hre
        rw [if_pos (by decide), if_pos rfl]
      · have hda : ¬(dollarAccepts rest = true) := by
          intro hd
          have hd2 : rest = [] ∨ rest = ['\n'] := by
            simpa [dollarAccepts] using hd
          rcases hd2 with h | h
          · exact hre h
          · obtain ⟨t, ht⟩ := matchFilenameCore_rest_suffix hc
            apply hnl
            rw [← ht, h]
            simp
        rw [if_neg hda, if_neg hre]

/-- C1 (code_bug): `swap_goalie_columns_in_rows` is *not* idempotent, in
contradiction with its own docstring ("Idempotent by design") and the spec.
On `ex_c1` the reversed header of the first Goalies section turns on
`did_global_column_swap`, which is never reset on section change; the first
pass therefore corrupts the well-formed data row of the second (canonical)
Goalies section, and a second pass both reports a change and returns a
different row list. -/
theorem c1_idempotence_fails_on_code :
    (swap_goalie_columns_in_rows (swap_goalie_columns_in_rows ex_c1).1).2 = true ∧
    (swap_goalie_columns_in_rows (swap_goalie_columns_in_rows ex_c1).1).1 ≠
      (swap_goalie_columns_in_rows ex_c1).1 := by decide

/-- C2 (code_bug): the global swap mode is *not* scoped to its section.
In `ex_c2` the second Goalies section has a canonical header and a sane data
row `["G", "40", "22"]` (40 games ≥ 22 wins), yet the output swaps it to
`["G", "22", "40"]`, because `did_global_column_swap`, set by the reversed
header of the *first* section, survives the `["Skaters"]` / `["Goalies"]`
markers (only `gp_idx` / `wg_idx` are reset there). -/
theorem c2_global_mode_leaks_across_sections :
    (swap_goalie_columns_in_rows ex_c2).1 =
      [["Goalies"], ["Pos", "GP", "W-G"], ["G", "20", "7"],
       ["Skaters"],
       ["Goalies"], ["Pos", "GP", "W-G"], ["G", "22", "40"]] ∧
    (swap_goalie_columns_in_rows ex_c2).1.getD 6 [] ≠ ex_c2.getD 6 [] := by decide

end FantraxSwap
